import Mathlib

set_option maxHeartbeats 1000000

namespace EduLink

/-!
Shallow embedding of the client-side document-list logic of the MentorLink
application (`src/components/dashboard/DocumentList.tsx`,
`DocumentReviewDialog.tsx`, `DocumentUploadDialog.tsx`).

JavaScript strings are modelled by Lean `String` (a list of characters);
`String.prototype.trim`, `toLowerCase` and `includes` are modelled by the
character-list functions below.  Timestamps (`Date` values, `created_at`)
are modelled as integers (milliseconds since the epoch), abstracting the
`new Date(string)` parse.
-/

/-- Model of the JavaScript whitespace test used by `String.prototype.trim`. -/
def jsWhitespace (c : Char) : Bool := c.isWhitespace

/-- Trim of a character list: drop whitespace from both ends. -/
def trimChars (l : List Char) : List Char :=
  ((l.dropWhile jsWhitespace).reverse.dropWhile jsWhitespace).reverse

/-- Model of `String.prototype.trim`. -/
def jsTrim (s : String) : String := ⟨trimChars s.data⟩

/-- Model of `String.prototype.toLowerCase` (locale-independent lowering). -/
def jsToLower (s : String) : String := ⟨s.data.map Char.toLower⟩

/-- Does `needle` occur at the very start of `hay`?  (helper for `includes`). -/
def charsStartWith : List Char → List Char → Bool
  | [], _ => true
  | _ :: _, [] => false
  | a :: as, b :: bs => a == b && charsStartWith as bs

/-- Does `needle` occur contiguously anywhere in `hay`? -/
def charsContain (needle : List Char) : List Char → Bool
  | [] => charsStartWith needle []
  | b :: bs => charsStartWith needle (b :: bs) || charsContain needle bs

/-- Model of `String.prototype.includes`. -/
def jsIncludes (hay needle : String) : Bool := charsContain needle.data hay.data

/-- The joined `document_categories(name)` row shape. -/
structure DocumentCategory where
  name : String
  deriving DecidableEq

/-- The `Document` interface of `DocumentList.tsx` (lines 16-29). -/
structure Document where
  id : String
  file_name : String
  file_path : String
  status : String
  description : Option String
  feedback : Option String
  created_at : Int
  updated_at : Int
  reviewed_at : Option Int
  document_categories : Option DocumentCategory
  deriving DecidableEq

/-- The filter-state quintuple of `DocumentList.tsx` (lines 47-51):
`searchQuery`, `selectedCategory`, `selectedStatus`, `dateFrom`, `dateTo`. -/
structure FilterCriteria where
  searchQuery : String
  selectedCategory : String
  selectedStatus : String
  dateFrom : Option Int
  dateTo : Option Int
  deriving DecidableEq

/-- Model of `isWithinInterval` from date-fns v3/v4: the two interval bounds
are normalized by sorting (`[+start, +end].sort(...)`) before the inclusive
comparison; this version of the library has no throwing path. -/
def isWithinInterval (t lo hi : Int) : Bool :=
  decide (min lo hi ≤ t) && decide (t ≤ max lo hi)

/-- The file-name search predicate of `applyFilters` (lines 87-89):
`doc.file_name.toLowerCase().includes(searchQuery.toLowerCase())`. -/
def textPred (c : FilterCriteria) (d : Document) : Bool :=
  jsIncludes (jsToLower d.file_name) (jsToLower c.searchQuery)

/-- The category predicate of `applyFilters` (lines 94-96):
`doc.document_categories?.name === selectedCategory` (optional chaining:
a document with no joined category compares `undefined === string`, false). -/
def categoryPred (c : FilterCriteria) (d : Document) : Bool :=
  match d.document_categories with
  | some cat => cat.name == c.selectedCategory
  | none => false

/-- The status predicate of `applyFilters` (line 101). -/
def statusPred (c : FilterCriteria) (d : Document) : Bool :=
  d.status == c.selectedStatus

/-- The date-range predicate of `applyFilters` (lines 106-117): both bounds
present uses `isWithinInterval`, one bound present uses the one-sided
comparison, no bounds returns true. -/
def datePred (c : FilterCriteria) (d : Document) : Bool :=
  match c.dateFrom, c.dateTo with
  | some f, some t => isWithinInterval d.created_at f t
  | some f, none => decide (f ≤ d.created_at)
  | none, some t => decide (d.created_at ≤ t)
  | none, none => true

/-- `applyFilters` of `DocumentList.tsx` (lines 82-121): four sequential
conditional `Array.filter` passes over a copy of `documents`. -/
def applyFilters (documents : List Document) (c : FilterCriteria) : List Document :=
  let f1 := if jsTrim c.searchQuery ≠ "" then documents.filter (textPred c) else documents
  let f2 := if c.selectedCategory ≠ "all" then f1.filter (categoryPred c) else f1
  let f3 := if c.selectedStatus ≠ "all" then f2.filter (statusPred c) else f2
  let f4 := if c.dateFrom.isSome || c.dateTo.isSome then f3.filter (datePred c) else f3
  f4

/-- The default filter state on mount: empty query, both selectors `all`,
no date bounds. -/
def defaultCriteria : FilterCriteria :=
  { searchQuery := "", selectedCategory := "all", selectedStatus := "all",
    dateFrom := none, dateTo := none }

/-- The conjunction of the four guarded predicates that one pass of
`applyFilters` decides for each record: guarded text match, guarded category
match, guarded status match, date-range match (the date branch of the code is
self-guarding: with no bounds it returns true). -/
def matchesCriteria (c : FilterCriteria) (d : Document) : Bool :=
  (if jsTrim c.searchQuery ≠ "" then textPred c d else true)
    && (if c.selectedCategory ≠ "all" then categoryPred c d else true)
    && (if c.selectedStatus ≠ "all" then statusPred c d else true)
    && datePred c d

/-- The date-range predicate as the specification words it: with both bounds
present, `record.created_at` must fall within the inclusive interval from the
lower bound `dateFrom` to the upper bound `dateTo` (no normalization of an
inverted pair of bounds). -/
def specDatePred (c : FilterCriteria) (d : Document) : Bool :=
  match c.dateFrom, c.dateTo with
  | some f, some t => decide (f ≤ d.created_at) && decide (d.created_at ≤ t)
  | some f, none => decide (f ≤ d.created_at)
  | none, some t => decide (d.created_at ≤ t)
  | none, none => true

/-- The record-membership predicate exactly as the specification describes it:
the conjunction of the four predicates with the literal (unnormalized)
inclusive date interval. -/
def specMatches (c : FilterCriteria) (d : Document) : Bool :=
  (if jsTrim c.searchQuery ≠ "" then textPred c d else true)
    && (if c.selectedCategory ≠ "all" then categoryPred c d else true)
    && (if c.selectedStatus ≠ "all" then statusPred c d else true)
    && specDatePred c d

/-- A concrete record created at time 5. -/
def cexDoc : Document :=
  { id := "d1", file_name := "Report.pdf", file_path := "u/1.pdf", status := "pending",
    description := none, feedback := none, created_at := 5, updated_at := 5,
    reviewed_at := none, document_categories := none }

/-- Inverted date bounds: lower bound 10 is after upper bound 0. -/
def cexCriteria : FilterCriteria :=
  { searchQuery := "", selectedCategory := "all", selectedStatus := "all",
    dateFrom := some 10, dateTo := some 0 }

/-- The two pieces of component state that `applyFilters` touches:
the canonical `documents` collection and the derived `filteredDocuments`
view (`DocumentList.tsx` lines 42-43). -/
structure ListState where
  documents : List Document
  filteredDocuments : List Document

/-- One run of `applyFilters` as a state transformer: it reads a snapshot of
`documents` and stores the derived view via `setFilteredDocuments`
(line 120); `documents` itself is only copied, never written. -/
def runApplyFilters (s : ListState) (c : FilterCriteria) : ListState :=
  { s with filteredDocuments := applyFilters s.documents c }

/-- The realtime INSERT handler (`DocumentList.tsx` line 154): after a
successful hydration fetch, the new record is prepended to the collection,
`setDocuments((prev) => [data, ...prev])`. -/
def onRemoteInsert (documents : List Document) (record : Document) : List Document :=
  record :: documents

/-- The realtime UPDATE handler (`DocumentList.tsx` lines 165-167):
`prev.map((doc) => (doc.id === data.id ? data : doc))`. -/
def onRemoteUpdate (documents : List Document) (record : Document) : List Document :=
  documents.map (fun doc => if doc.id == record.id then record else doc)

/-- The realtime DELETE handler (`DocumentList.tsx` line 170):
`prev.filter((doc) => doc.id !== payload.old.id)`. -/
def onRemoteDelete (documents : List Document) (id : String) : List Document :=
  documents.filter (fun doc => doc.id != id)

/-- An existing record with identity `d1`. -/
def c1Doc : Document :=
  { id := "d1", file_name := "Old.pdf", file_path := "u/old.pdf", status := "pending",
    description := none, feedback := none, created_at := 1, updated_at := 1,
    reviewed_at := none, document_categories := none }

/-- An incoming record with the same identity `d1` but different content. -/
def c1Rec : Document :=
  { id := "d1", file_name := "New.pdf", file_path := "u/new.pdf", status := "approved",
    description := none, feedback := none, created_at := 2, updated_at := 2,
    reviewed_at := none, document_categories := none }

/-- `Array.prototype.filter` with a callback that may throw: the callback is
run left to right and the first exception aborts the traversal. -/
def filterE (p : α → Except String Bool) : List α → Except String (List α)
  | [] => Except.ok []
  | a :: l =>
    match p a with
    | Except.error e => Except.error e
    | Except.ok b =>
      match filterE p l with
      | Except.error e => Except.error e
      | Except.ok r => Except.ok (if b then a :: r else r)

/-- `isWithinInterval` of date-fns v3/v4 with its (absent) failure path made
explicit: the library sorts the two bounds and compares; its body contains no
`throw`, so the only outcome is `ok` (the v2 line of the library, by
contrast, threw a `RangeError` on an inverted interval). -/
def isWithinIntervalE (t lo hi : Int) : Except String Bool :=
  Except.ok (isWithinInterval t lo hi)

/-- The date-range callback of `applyFilters` with exception propagation made
explicit; only the `isWithinInterval` library call could conceivably throw. -/
def datePredE (c : FilterCriteria) (d : Document) : Except String Bool :=
  match c.dateFrom, c.dateTo with
  | some f, some t => isWithinIntervalE d.created_at f t
  | some f, none => Except.ok (decide (f ≤ d.created_at))
  | none, some t => Except.ok (decide (d.created_at ≤ t))
  | none, none => Except.ok true

/-- Sequencing of two possibly-throwing steps: the first exception aborts. -/
def exBind (x : Except String α) (f : α → Except String β) : Except String β :=
  match x with
  | Except.error e => Except.error e
  | Except.ok a => f a

/-- `applyFilters` with JavaScript exception propagation made explicit: each
filter pass aborts on the first exception thrown by its callback. -/
def applyFiltersE (documents : List Document) (c : FilterCriteria) :
    Except String (List Document) :=
  exBind (if jsTrim c.searchQuery ≠ "" then
          filterE (fun d => Except.ok (textPred c d)) documents
        else Except.ok documents) (fun f1 =>
  exBind (if c.selectedCategory ≠ "all" then
          filterE (fun d => Except.ok (categoryPred c d)) f1
        else Except.ok f1) (fun f2 =>
  exBind (if c.selectedStatus ≠ "all" then
          filterE (fun d => Except.ok (statusPred c d)) f2
        else Except.ok f2) (fun f3 =>
  exBind (if c.dateFrom.isSome || c.dateTo.isSome then
          filterE (datePredE c) f3
        else Except.ok f3) (fun f4 =>
  Except.ok f4))))

/-- The two review actions of `DocumentReviewDialog.tsx`. -/
inductive ReviewAction
  | approve
  | reject
  deriving DecidableEq

/-- The value produced by a successful `reviewSchema.parse`. -/
structure ValidatedReview where
  action : ReviewAction
  feedback : String

/-- `reviewSchema` (`DocumentReviewDialog.tsx` lines 20-34): the feedback
string is trimmed (`z.string().trim()`), then the refinement requires, for a
reject, a non-empty trimmed feedback of at most 1000 characters, and for an
approve at most 1000 characters; `none` models a thrown `ZodError`. -/
def reviewSchemaParse (action : ReviewAction) (rawFeedback : String) :
    Option ValidatedReview :=
  let f := jsTrim rawFeedback
  let ok : Bool :=
    match action with
    | ReviewAction.reject => decide (0 < f.length) && decide (f.length ≤ 1000)
    | ReviewAction.approve => decide (f.length ≤ 1000)
  if ok then some ⟨action, f⟩ else none

/-- The update payload `handleReview` sends to the remote `documents` table
(`DocumentReviewDialog.tsx` lines 88-96). -/
structure ReviewUpdate where
  status : String
  feedback : Option String
  reviewed_by : String
  reviewed_at : Int

/-- `handleReview` (`DocumentReviewDialog.tsx` lines 73-117): validates
`{action, feedback: feedback.trim()}` against `reviewSchema`; on a
`ZodError` no remote call is made (`none`); on success the payload carries
the new status, the trimmed feedback (`|| null` turns an empty string into
null), the reviewer id and the review time. -/
def handleReview (action : ReviewAction) (feedback userId : String) (now : Int) :
    Option ReviewUpdate :=
  match reviewSchemaParse action (jsTrim feedback) with
  | none => none
  | some v =>
    some { status := match action with
             | ReviewAction.approve => "approved"
             | ReviewAction.reject => "rejected"
           feedback := if v.feedback = "" then none else some v.feedback
           reviewed_by := userId
           reviewed_at := now }

/-- The reviewable fields of a `documents` row. -/
structure DocumentRow where
  id : String
  status : String
  feedback : Option String
  reviewed_by : Option String
  reviewed_at : Option Int
  deriving DecidableEq

/-- Effect of the review mutation on the stored row: dropped validation
(`none`) leaves the row untouched; a payload overwrites status, feedback and
review metadata. -/
def applyReview (row : DocumentRow) : Option ReviewUpdate → DocumentRow
  | none => row
  | some u =>
    { row with
      status := u.status
      feedback := u.feedback
      reviewed_by := some u.reviewed_by
      reviewed_at := some u.reviewed_at }

/-- A concrete pending row awaiting review. -/
def c5Row : DocumentRow :=
  { id := "d1", status := "pending", feedback := none, reviewed_by := none, reviewed_at := none }

/-- The fields of a browser `File` object that `uploadSchema` inspects. -/
structure JsFile where
  name : String
  size : Nat
  type : String
  deriving DecidableEq

/-- The MIME types `uploadSchema` accepts
(`DocumentUploadDialog.tsx` lines 34-37). -/
def allowedMimeTypes : List String :=
  ["application/pdf", "image/jpeg", "image/png", "image/jpg"]

/-- The value produced by a successful `uploadSchema.parse`. -/
structure ValidatedUpload where
  file : JsFile
  categoryId : String
  description : String

/-- `uploadSchema` (`DocumentUploadDialog.tsx` lines 27-48): the file must be
at most `10 * 1024 * 1024` bytes and of an allowed MIME type, the category id
must be a non-empty string (`min(1)`), and the trimmed description at most
500 characters; `none` models a thrown `ZodError`. -/
def uploadSchemaParse (file : JsFile) (categoryId description : String) :
    Option ValidatedUpload :=
  let d := jsTrim description
  if (decide (file.size ≤ 10 * 1024 * 1024)
      && allowedMimeTypes.contains file.type
      && decide (1 ≤ categoryId.length)
      && decide (d.length ≤ 500)) then
    some ⟨file, categoryId, d⟩
  else none

/-- The row `handleSubmit` inserts into the `documents` table
(`DocumentUploadDialog.tsx` lines 127-135). -/
structure InsertRecord where
  student_id : String
  category_id : String
  file_name : String
  file_path : String
  description : Option String
  deriving DecidableEq

/-- `handleSubmit` (`DocumentUploadDialog.tsx` lines 93-137): returns the
storage path uploaded to and the row inserted, or `none` when the user or
file guard or the schema validation stops the submission before any remote
call (storage upload and record insert included). -/
def handleSubmit (user : Option String) (file : Option JsFile)
    (categoryId description : String) (nowMs : Nat) :
    Option (String × InsertRecord) :=
  match user with
  | none => none
  | some uid =>
    match file with
    | none => none
    | some f =>
      match uploadSchemaParse f categoryId description with
      | none => none
      | some v =>
        let fileExt := (v.file.name.splitOn ".").getLastD ""
        let fileName := uid ++ "/" ++ toString nowMs ++ "." ++ fileExt
        some (fileName,
          { student_id := uid
            category_id := v.categoryId
            file_name := v.file.name
            file_path := fileName
            description := if v.description = "" then none else some v.description })

/-! Theorems. -/

theorem filter_all_true (l : List α) : l.filter (fun _ => true) = l :=
  List.filter_eq_self.mpr (fun _ _ => rfl)

theorem filter_ite {P : Prop} [Decidable P] (p : α → Bool) (l : List α) :
    (if P then l.filter p else l) = l.filter (fun a => if P then p a else true) := by
  by_cases h : P
  · simp [h]
  · simp [h, filter_all_true]

theorem datePred_guard (c : FilterCriteria) (d : Document) :
    (if c.dateFrom.isSome || c.dateTo.isSome then datePred c d else true) = datePred c d := by
  rcases hf : c.dateFrom with _ | f <;> rcases ht : c.dateTo with _ | t <;>
    simp [datePred, hf, ht]

theorem applyFilters_eq_filter (docs : List Document) (c : FilterCriteria) :
    applyFilters docs c = docs.filter (matchesCriteria c) := by
  show (if c.dateFrom.isSome || c.dateTo.isSome then
          ((if c.selectedStatus ≠ "all" then
              ((if c.selectedCategory ≠ "all" then
                  ((if jsTrim c.searchQuery ≠ "" then docs.filter (textPred c) else docs).filter
                    (categoryPred c))
                else
                  (if jsTrim c.searchQuery ≠ "" then docs.filter (textPred c) else docs))).filter
                (statusPred c)
            else
              (if c.selectedCategory ≠ "all" then
                  ((if jsTrim c.searchQuery ≠ "" then docs.filter (textPred c) else docs).filter
                    (categoryPred c))
                else
                  (if jsTrim c.searchQuery ≠ "" then docs.filter (textPred c) else docs)))).filter
            (datePred c)
        else
          (if c.selectedStatus ≠ "all" then
              ((if c.selectedCategory ≠ "all" then
                  ((if jsTrim c.searchQuery ≠ "" then docs.filter (textPred c) else docs).filter
                    (categoryPred c))
                else
                  (if jsTrim c.searchQuery ≠ "" then docs.filter (textPred c) else docs))).filter
                (statusPred c)
            else
              (if c.selectedCategory ≠ "all" then
                  ((if jsTrim c.searchQuery ≠ "" then docs.filter (textPred c) else docs).filter
                    (categoryPred c))
                else
                  (if jsTrim c.searchQuery ≠ "" then docs.filter (textPred c) else docs)))) =
      docs.filter (matchesCriteria c)
  rw [filter_ite (textPred c) docs, filter_ite (categoryPred c), filter_ite (statusPred c),
    filter_ite (datePred c), List.filter_filter, List.filter_filter, List.filter_filter]
  refine List.filter_congr (fun d _ => ?_)
  rw [datePred_guard, matchesCriteria]
  cases hq : (if jsTrim c.searchQuery ≠ "" then textPred c d else true) <;>
    cases hc : (if c.selectedCategory ≠ "all" then categoryPred c d else true) <;>
      cases hs : (if c.selectedStatus ≠ "all" then statusPred c d else true) <;>
        cases hd : datePred c d <;> simp [hq, hc, hs, hd]

/-- C6: with the default criteria, `applyFilters` is the identity projection. -/
theorem applyFilters_default_identity (docs : List Document) :
    applyFilters docs defaultCriteria = docs := rfl

/-- C3 counterexample: with both bounds present but inverted
(`dateFrom = 10 > 0 = dateTo`), the code's date-fns v3 `isWithinInterval`
normalizes the bounds, so the record created at 5 survives the filter, while
the specified inclusive interval from 10 to 0 is empty; the output is not the
set of records satisfying the specified conjunction. -/
theorem applyFilters_inverted_range_mismatch :
    applyFilters [cexDoc] cexCriteria ≠ [cexDoc].filter (fun d => specMatches cexCriteria d) ∧
      applyFilters [cexDoc] cexCriteria = [cexDoc] ∧ specMatches cexCriteria cexDoc = false := by
  exact ⟨by decide, rfl, rfl⟩

/-- C3 (amended): `applyFilters` returns exactly the records satisfying the
conjunction of the four predicates, where the date-range predicate with both
bounds present tests membership of the interval with its bounds normalized
(sorted), and the output is a subsequence of the input preserving its
relative order. -/
theorem applyFilters_filter_spec (docs : List Document) (c : FilterCriteria) :
    applyFilters docs c = docs.filter (matchesCriteria c) ∧
      (applyFilters docs c).Sublist docs := by
  refine ⟨applyFilters_eq_filter docs c, ?_⟩
  rw [applyFilters_eq_filter]
  exact List.filter_sublist docs

/-- C7: `applyFilters` is idempotent — filtering its own output with the same
criteria returns that output unchanged. -/
theorem applyFilters_idempotent (docs : List Document) (c : FilterCriteria) :
    applyFilters (applyFilters docs c) c = applyFilters docs c := by
  rw [applyFilters_eq_filter, applyFilters_eq_filter, List.filter_filter]
  exact List.filter_congr (fun d _ => Bool.and_self _)

/-- C9: the filter run never mutates its input — the source collection
(length, contents and order) is the same before and after, and only the
derived view is (re)computed. -/
theorem applyFilters_frame (s : ListState) (c : FilterCriteria) :
    (runApplyFilters s c).documents = s.documents ∧
      (runApplyFilters s c).filteredDocuments = applyFilters s.documents c :=
  ⟨rfl, rfl⟩

/-- C1 counterexample: inserting a record whose identity equals an existing
record's identity does not leave the collection size unchanged — the handler
prepends unconditionally, so the size grows from 1 to 2 and the old entry is
not replaced. -/
theorem onRemoteInsert_duplicate_grows :
    c1Rec.id = c1Doc.id ∧ c1Rec ≠ c1Doc ∧
      (onRemoteInsert [c1Doc] c1Rec).length ≠ ([c1Doc] : List Document).length ∧
      c1Doc ∈ onRemoteInsert [c1Doc] c1Rec := by
  refine ⟨rfl, by decide, by decide, ?_⟩
  simp [onRemoteInsert]

/-- C1 (amended): the remote-insert handler prepends the record at the head
unconditionally; when a record with the same identity already exists the
collection size grows by one and the collection then holds at least two
entries with that identity — there is no in-place replacement. -/
theorem onRemoteInsert_prepends (s : List Document) (r : Document) :
    onRemoteInsert s r = r :: s ∧
      (onRemoteInsert s r).length = s.length + 1 ∧
      (∀ d ∈ s, d.id = r.id →
        2 ≤ (onRemoteInsert s r).countP (fun x => x.id == r.id)) := by
  refine ⟨rfl, rfl, fun d hd hid => ?_⟩
  have h1 : 0 < s.countP (fun x => x.id == r.id) :=
    List.countP_pos_iff.mpr ⟨d, hd, by simp [hid]⟩
  have h2 : (onRemoteInsert s r).countP (fun x => x.id == r.id) =
      s.countP (fun x => x.id == r.id) + 1 := by
    simp [onRemoteInsert, List.countP_cons]
  omega

theorem onRemoteInsert_prepends_witness :
    2 ≤ (onRemoteInsert [c1Doc] c1Rec).countP (fun x => x.id == c1Rec.id) :=
  (onRemoteInsert_prepends [c1Doc] c1Rec).2.2 c1Doc (by simp) (by decide)

theorem onRemoteUpdate_of_absent (r : Document) :
    ∀ s : List Document, (∀ d ∈ s, d.id ≠ r.id) → onRemoteUpdate s r = s := by
  intro s
  induction s with
  | nil => intro _; rfl
  | cons a t ih =>
    intro h
    have ha : a.id ≠ r.id := h a (by simp)
    have ht := ih (fun d hd => h d (by simp [hd]))
    simpa [onRemoteUpdate, ha] using ht

/-- C4: the remote-update handler rewrites, position by position, exactly the
entries whose identity equals the incoming record's identity, keeps the
length and every other entry unchanged, and is a no-op when no entry has
that identity (no insert-on-update). -/
theorem onRemoteUpdate_replaces_in_place (s : List Document) (r : Document) :
    (onRemoteUpdate s r).length = s.length ∧
      (∀ i : Nat, (onRemoteUpdate s r)[i]? =
        (s[i]?).map (fun d => if d.id = r.id then r else d)) ∧
      ((∀ d ∈ s, d.id ≠ r.id) → onRemoteUpdate s r = s) := by
  refine ⟨List.length_map _ _, fun i => ?_, onRemoteUpdate_of_absent r s⟩
  rw [onRemoteUpdate, List.getElem?_map]
  cases s[i]? <;> simp [beq_iff_eq]

theorem onRemoteUpdate_replaces_in_place_witness :
    onRemoteUpdate [c1Doc] { c1Rec with id := "other" } = [c1Doc] :=
  (onRemoteUpdate_replaces_in_place [c1Doc] { c1Rec with id := "other" }).2.2 (by decide)

/-- C8: the remote-delete handler removes every entry with the given
identity, keeps every other entry (in order, the result being a subsequence
of the input), and is a no-op — with no error — when no entry has that
identity. -/
theorem onRemoteDelete_spec (s : List Document) (i : String) :
    (∀ d ∈ onRemoteDelete s i, d.id ≠ i) ∧
      ((∀ d ∈ s, d.id ≠ i) → onRemoteDelete s i = s) ∧
      (onRemoteDelete s i).Sublist s ∧
      (∀ d ∈ s, d.id ≠ i → d ∈ onRemoteDelete s i) := by
  refine ⟨?_, ?_, List.filter_sublist s, ?_⟩
  · intro d hd
    have hm := (List.mem_filter.mp hd).2
    simpa using hm
  · intro h
    exact List.filter_eq_self.mpr (fun d hd => by simpa using h d hd)
  · intro d hd hne
    exact List.mem_filter.mpr ⟨hd, by simpa using hne⟩

theorem onRemoteDelete_spec_witness :
    onRemoteDelete [c1Doc] "absent-id" = [c1Doc] :=
  (onRemoteDelete_spec [c1Doc] "absent-id").2.1 (by decide)

theorem exBind_ok (a : α) (f : α → Except String β) :
    exBind (Except.ok a) f = f a := rfl

theorem filterE_ok_of_pointwise {p : α → Except String Bool} {q : α → Bool}
    (hpq : ∀ a, p a = Except.ok (q a)) :
    ∀ l : List α, filterE p l = Except.ok (l.filter q) := by
  intro l
  induction l with
  | nil => rfl
  | cons a t ih =>
    rw [filterE, hpq a, ih]
    cases hq : q a <;> simp [List.filter_cons, hq]

theorem datePredE_ok (c : FilterCriteria) (d : Document) :
    datePredE c d = Except.ok (datePred c d) := by
  rcases hf : c.dateFrom with _ | f <;> rcases ht : c.dateTo with _ | t <;>
    simp [datePredE, datePred, isWithinIntervalE, hf, ht]

/-- C2: for every collection and every criteria — the inverted date range
included — the filter application runs to completion and returns an ordinary
(possibly empty) result; no exception is ever propagated. -/
theorem applyFiltersE_total (docs : List Document) (c : FilterCriteria) :
    applyFiltersE docs c = Except.ok (applyFilters docs c) := by
  have h1 : (if jsTrim c.searchQuery ≠ "" then
      filterE (fun d => Except.ok (textPred c d)) docs
    else Except.ok docs) = Except.ok
      (if jsTrim c.searchQuery ≠ "" then docs.filter (textPred c) else docs) := by
    by_cases h : jsTrim c.searchQuery ≠ "" <;>
      simp [h, filterE_ok_of_pointwise (fun _ => rfl)]
  have h2 : ∀ l : List Document, (if c.selectedCategory ≠ "all" then
      filterE (fun d => Except.ok (categoryPred c d)) l
    else Except.ok l) = Except.ok
      (if c.selectedCategory ≠ "all" then l.filter (categoryPred c) else l) := by
    intro l
    by_cases h : c.selectedCategory ≠ "all" <;>
      simp [h, filterE_ok_of_pointwise (fun _ => rfl)]
  have h3 : ∀ l : List Document, (if c.selectedStatus ≠ "all" then
      filterE (fun d => Except.ok (statusPred c d)) l
    else Except.ok l) = Except.ok
      (if c.selectedStatus ≠ "all" then l.filter (statusPred c) else l) := by
    intro l
    by_cases h : c.selectedStatus ≠ "all" <;>
      simp [h, filterE_ok_of_pointwise (fun _ => rfl)]
  have h4 : ∀ l : List Document, (if c.dateFrom.isSome || c.dateTo.isSome then
      filterE (datePredE c) l
    else Except.ok l) = Except.ok
      (if c.dateFrom.isSome || c.dateTo.isSome then l.filter (datePred c) else l) := by
    intro l
    by_cases h : (c.dateFrom.isSome || c.dateTo.isSome : Bool) = true <;>
      simp [h, filterE_ok_of_pointwise (datePredE_ok c)]
  rw [applyFiltersE, h1, exBind_ok, h2, exBind_ok, h3, exBind_ok, h4, exBind_ok]
  rfl

theorem dropWhile_dropWhile (p : α → Bool) (l : List α) :
    (l.dropWhile p).dropWhile p = l.dropWhile p := by
  induction l with
  | nil => rfl
  | cons a t ih =>
    by_cases h : p a = true
    · rw [List.dropWhile_cons_of_pos h]
      exact ih
    · rw [List.dropWhile_cons_of_neg h, List.dropWhile_cons_of_neg h]

theorem dropWhile_head_false (p : α → Bool) :
    ∀ (l : List α) (b : α) (t : List α), l.dropWhile p = b :: t → p b = false := by
  intro l
  induction l with
  | nil =>
    intro b t h
    cases h
  | cons a l ih =>
    intro b t h
    by_cases ha : p a = true
    · rw [List.dropWhile_cons_of_pos ha] at h
      exact ih b t h
    · rw [List.dropWhile_cons_of_neg ha] at h
      cases h
      simpa using ha

theorem trimChars_idem (l : List Char) : trimChars (trimChars l) = trimChars l := by
  cases ht : trimChars l with
  | nil => rfl
  | cons b bs =>
    rw [← ht]
    have hpref : trimChars l <+: l.dropWhile jsWhitespace := by
      have hsuf : (l.dropWhile jsWhitespace).reverse.dropWhile jsWhitespace <:+
          (l.dropWhile jsWhitespace).reverse := List.dropWhile_suffix _
      have h := List.reverse_prefix.mpr hsuf
      simpa [trimChars] using h
    rw [ht] at hpref
    obtain ⟨r, hr⟩ := hpref
    have hb : jsWhitespace b = false := by
      refine dropWhile_head_false jsWhitespace l b (bs ++ r) ?_
      rw [← hr]
      rfl
    have h1 : (trimChars l).dropWhile jsWhitespace = trimChars l := by
      rw [ht, List.dropWhile_cons_of_neg (by simp [hb])]
    have h2 : (trimChars l).reverse = (l.dropWhile jsWhitespace).reverse.dropWhile jsWhitespace := by
      rw [trimChars, List.reverse_reverse]
    calc trimChars (trimChars l)
        = (((trimChars l).dropWhile jsWhitespace).reverse.dropWhile jsWhitespace).reverse := rfl
      _ = ((trimChars l).reverse.dropWhile jsWhitespace).reverse := by rw [h1]
      _ = (((l.dropWhile jsWhitespace).reverse.dropWhile jsWhitespace).dropWhile
            jsWhitespace).reverse := by rw [h2]
      _ = ((l.dropWhile jsWhitespace).reverse.dropWhile jsWhitespace).reverse := by
            rw [dropWhile_dropWhile]
      _ = trimChars l := rfl

/-- Idempotence of `String.prototype.trim`: trimming a trimmed string is the
identity (the review handler trims the feedback it passes and the schema
trims it again). -/
theorem jsTrim_idem (s : String) : jsTrim (jsTrim s) = jsTrim s := by
  show (⟨trimChars (String.data ⟨trimChars s.data⟩)⟩ : String) = ⟨trimChars s.data⟩
  rw [show String.data ⟨trimChars s.data⟩ = trimChars s.data from rfl, trimChars_idem]

/-- C5: a reject with empty trimmed feedback, or feedback whose trimmed form
exceeds 1000 characters on either action, fails local validation before any
remote mutation and leaves the row's status, feedback and review metadata
untouched; and any remotely-sent reject payload carries non-empty feedback. -/
theorem handleReview_validation_guards (action : ReviewAction)
    (feedback userId : String) (now : Int) (row : DocumentRow) :
    ((action = ReviewAction.reject ∧ jsTrim feedback = "") ∨
        1000 < (jsTrim feedback).length →
      handleReview action feedback userId now = none ∧
        applyReview row (handleReview action feedback userId now) = row) ∧
      (∀ u, handleReview action feedback userId now = some u →
        u.status = "rejected" → ∃ s, u.feedback = some s ∧ s ≠ "") := by
  constructor
  · intro h
    have hnone : handleReview action feedback userId now = none := by
      rcases h with ⟨ha, hf⟩ | hlen
      · subst ha
        have hp : reviewSchemaParse ReviewAction.reject "" = none := rfl
        simp [handleReview, hf, hp]
      · have hle : ¬ ((jsTrim feedback).length ≤ 1000) := by omega
        have hp : reviewSchemaParse action (jsTrim feedback) = none := by
          cases action <;> simp [reviewSchemaParse, jsTrim_idem, hle]
        simp [handleReview, hp]
    rw [hnone]
    exact ⟨rfl, rfl⟩
  · intro u hu hstat
    rcases hp : reviewSchemaParse action (jsTrim feedback) with _ | v
    · simp [handleReview, hp] at hu
    · simp only [handleReview, hp] at hu
      injection hu with hu
      cases action with
      | approve =>
        exfalso
        rw [← hu] at hstat
        simp at hstat
      | reject =>
        have hv : 0 < v.feedback.length := by
          simp only [reviewSchemaParse] at hp
          split at hp
          · rename_i hok
            injection hp with hp
            rw [← hp]
            have hd := (Bool.and_eq_true_iff.mp hok).1
            simpa using hd
          · cases hp
        have hne : v.feedback ≠ "" := by
          intro h'
          rw [h'] at hv
          exact absurd hv (by decide)
        refine ⟨v.feedback, ?_, hne⟩
        rw [← hu]
        simp [hne]

theorem handleReview_validation_guards_witness :
    handleReview ReviewAction.reject " " "mentor-1" 0 = none ∧
      applyReview c5Row (handleReview ReviewAction.reject " " "mentor-1" 0) = c5Row :=
  (handleReview_validation_guards ReviewAction.reject " " "mentor-1" 0 c5Row).1
    (Or.inl ⟨rfl, by decide⟩)

/-- C10: an oversized file (more than 10 MiB), a disallowed MIME type, no
selected category, or a trimmed description longer than 500 characters makes
validation fail before any remote call — neither a storage upload nor a
document-record insert is attempted. -/
theorem handleSubmit_validation_guards (uid : String) (f : JsFile)
    (categoryId description : String) (nowMs : Nat) :
    (10 * 1024 * 1024 < f.size ∨ allowedMimeTypes.contains f.type = false ∨
        categoryId = "" ∨ 500 < (jsTrim description).length) →
      uploadSchemaParse f categoryId description = none ∧
        handleSubmit (some uid) (some f) categoryId description nowMs = none := by
  intro h
  have hp : uploadSchemaParse f categoryId description = none := by
    rcases h with hsz | hmime | hcat | hdesc
    · have : ¬ (f.size ≤ 10 * 1024 * 1024) := by omega
      simp [uploadSchemaParse, this]
    · have hmem : f.type ∉ allowedMimeTypes := by simpa using hmime
      simp [uploadSchemaParse, hmem]
    · subst hcat
      simp [uploadSchemaParse]
    · have : ¬ ((jsTrim description).length ≤ 500) := by omega
      simp [uploadSchemaParse, this]
  exact ⟨hp, by simp [handleSubmit, hp]⟩

theorem handleSubmit_validation_guards_witness :
    handleSubmit (some "student-1")
        (some { name := "tool.exe", size := 64, type := "application/octet-stream" })
        "cat-1" "" 0 = none :=
  (handleSubmit_validation_guards "student-1"
      { name := "tool.exe", size := 64, type := "application/octet-stream" }
      "cat-1" "" 0 (Or.inr (Or.inl (by decide)))).2

end EduLink
